import Mathlib

/-!
Shallow embedding of the `siatune` repository (SI-Analytics hyperparameter
tuning glue) and proofs about its specified behaviour.

Embedded source files:
* `siatune/version.py` — `parse_version_info`
* `siatune/codebase/mmcls.py` — `MMClassification.parse_args` / `.run`
  (the work-dir resolution, GPU-flag resolution, launcher handling and
  `LOCAL_RANK` environment handling)
* `siatune/codebase/mm.py` — `MMBaseTask.create_trainable`

Python exceptions are modelled by `Option`/`Except` results; the process
environment is an association list; machine integers are `Int`/`Nat`.
-/

namespace Siatune

/-! ### Model of the Python builtins used by `version.py`

`str.split(sep)` splits at every non-overlapping occurrence of the
separator, left to right; `str.isdigit()` on ASCII input is "non-empty and
all digits"; `int(s)` strips surrounding whitespace, takes an optional
sign and then digit groups separated by single underscores, raising
`ValueError` (here: `none`) otherwise.
-/

/-- Python whitespace characters stripped by `int()` (ASCII subset). -/
def isPySpace (c : Char) : Bool :=
  (c == ' ') || (c == '\t') || (c == '\n') || (c == '\r') ||
    (c == '\x0b') || (c == '\x0c')

/-- Strip leading and trailing whitespace, as `int()` does to its input. -/
def stripPy (l : List Char) : List Char :=
  ((l.dropWhile isPySpace).reverse.dropWhile isPySpace).reverse

/-- Decimal value of a digit list (most significant first). -/
def digitsToNat (l : List Char) : Nat :=
  l.foldl (fun a c => a * 10 + (c.toNat - '0'.toNat)) 0

/-- No two consecutive underscores. -/
def noConsecUnd : List Char → Bool
  | [] => true
  | [_] => true
  | a :: b :: rest => !((a == '_') && (b == '_')) && noConsecUnd (b :: rest)

/-- A valid unsigned integer literal for `int()`: digit groups separated by
single underscores (regex `[0-9]+(_[0-9]+)*`). -/
def digGroupsOK (l : List Char) : Bool :=
  !l.isEmpty && l.all (fun c => c.isDigit || c == '_') &&
    (l.headD '_').isDigit && (l.getLastD '_').isDigit && noConsecUnd l

/-- Value of an unsigned integer literal, `none` when malformed. -/
def digGroupsVal (l : List Char) : Option Nat :=
  if digGroupsOK l then some (digitsToNat (l.filter Char.isDigit)) else none

/-- Model of Python `int(s)` (base 10) on a character list: strip
whitespace, optional sign, digit groups; `none` models `ValueError`. -/
def pyIntL (l : List Char) : Option Int :=
  let t := stripPy l
  if t.headD ' ' = '-' then (digGroupsVal t.tail).map (fun n => -(n : Int))
  else if t.headD ' ' = '+' then (digGroupsVal t.tail).map (fun n => (n : Int))
  else (digGroupsVal t).map (fun n => (n : Int))

/-- Model of Python `x.isdigit()` for ASCII input: non-empty, all digits. -/
def isdigitL (l : List Char) : Bool :=
  !l.isEmpty && l.all Char.isDigit

/-- Model of Python `s.split(sep)` for a single-character separator. -/
def splitOnChar (sep : Char) : List Char → List (List Char)
  | [] => [[]]
  | c :: rest =>
    if c = sep then [] :: splitOnChar sep rest
    else
      match splitOnChar sep rest with
      | h :: t => (c :: h) :: t
      | [] => [[c]]

/-- `version_str.split('.')`. -/
def splitDot (l : List Char) : List (List Char) := splitOnChar '.' l

/-- Model of Python `x.split('rc')`: split at every non-overlapping
occurrence of the two-character separator `rc`, left to right. -/
def splitRc : List Char → List (List Char)
  | [] => [[]]
  | [c] => [[c]]
  | a :: b :: rest =>
    if a = 'r' ∧ b = 'c' then [] :: splitRc rest
    else
      match splitRc (b :: rest) with
      | h :: t => (a :: h) :: t
      | [] => [[a]]

/-- `x.find('rc') != -1`, i.e. `rc` occurs in `x` as a substring. -/
def rcOccurs (l : List Char) : Bool := 2 ≤ (splitRc l).length

/-! ### `siatune/version.py` -/

/-- A component of the parsed version tuple: Python appends `int`s for
numeric segments and an `f'rc{...}'` string for release candidates. -/
inductive VComp where
  | num (n : Int)
  | str (s : String)
deriving DecidableEq

/-- One iteration of the loop body of `parse_version_info` for a segment
`x` of `version_str.split('.')`:

```python
if x.isdigit():
    version_info.append(int(x))
elif x.find('rc') != -1:
    patch_version = x.split('rc')
    version_info.append(int(patch_version[0]))
    version_info.append(f'rc{patch_version[1]}')
```

The result is the list of appended components; `none` models a raised
`ValueError` from `int`. -/
def parseSegment (x : List Char) : Option (List VComp) :=
  if isdigitL x then
    (pyIntL x).map (fun n => [VComp.num n])
  else if rcOccurs x then
    (pyIntL ((splitRc x).headD [])).map
      (fun n => [VComp.num n, VComp.str ⟨'r' :: 'c' :: (splitRc x).getD 1 []⟩])
  else some []

/-- The whole loop: left-to-right accumulation of the per-segment
components, stopping with `none` at the first raised `ValueError`. -/
def collectSegments : List (List Char) → Option (List VComp)
  | [] => some []
  | x :: rest =>
    match parseSegment x, collectSegments rest with
    | some v, some vs => some (v ++ vs)
    | _, _ => none

/-- `siatune/version.py` — `parse_version_info(version_str)`.
`none` models a raised exception; `some l` models returning `tuple(l)`. -/
def parse_version_info (version_str : String) : Option (List VComp) :=
  collectSegments (splitDot version_str.data)

/-! ### Supporting lemmas about the builtins on all-digit segments -/

lemma isPySpace_eq_false_of_isDigit (c : Char) (h : c.isDigit = true) :
    isPySpace c = false := by
  cases hq : isPySpace c with
  | false => rfl
  | true =>
    simp only [isPySpace, Bool.or_eq_true, beq_iff_eq] at hq
    rcases hq with ((((hc | hc) | hc) | hc) | hc) | hc <;> subst hc <;> simp at h

lemma dropWhile_isPySpace_of_digits (l : List Char)
    (h : ∀ c ∈ l, c.isDigit = true) : l.dropWhile isPySpace = l := by
  cases l with
  | nil => rfl
  | cons a t =>
    rw [List.dropWhile_cons,
      isPySpace_eq_false_of_isDigit a (h a (List.mem_cons_self a t))]
    simp

lemma stripPy_of_digits (l : List Char) (h : ∀ c ∈ l, c.isDigit = true) :
    stripPy l = l := by
  unfold stripPy
  rw [dropWhile_isPySpace_of_digits l h,
    dropWhile_isPySpace_of_digits l.reverse
      (fun c hc => h c (List.mem_reverse.mp hc)),
    List.reverse_reverse]

lemma noConsecUnd_of_digits (l : List Char)
    (h : ∀ c ∈ l, c.isDigit = true) : noConsecUnd l = true := by
  induction l with
  | nil => rfl
  | cons a t ih =>
    cases t with
    | nil => rfl
    | cons b r =>
      have ha : a.isDigit = true := h a (List.mem_cons_self _ _)
      have hau : (a == '_') = false := by
        cases hq : (a == '_') with
        | false => rfl
        | true =>
          rw [beq_iff_eq] at hq
          subst hq
          simp at ha
      simp only [noConsecUnd, hau, Bool.false_and, Bool.not_false,
        Bool.true_and]
      exact ih (fun c hc => h c (List.mem_cons_of_mem _ hc))

lemma getLastD_mem_of_ne_nil {α : Type} (l : List α) (d : α) (h : l ≠ []) :
    l.getLastD d ∈ l := by
  induction l with
  | nil => exact absurd rfl h
  | cons a t ih =>
    cases t with
    | nil => simp
    | cons b r =>
      rw [List.getLastD_cons]
      exact List.mem_cons_of_mem _ (ih (by simp))

lemma digGroupsOK_of_digits (l : List Char) (hne : l ≠ [])
    (h : ∀ c ∈ l, c.isDigit = true) : digGroupsOK l = true := by
  unfold digGroupsOK
  have h1 : l.isEmpty = false := by
    cases l with
    | nil => exact absurd rfl hne
    | cons a t => rfl
  have h2 : l.all (fun c => c.isDigit || c == '_') = true := by
    rw [List.all_eq_true]
    intro c hc
    simp [h c hc]
  have h3 : (l.headD '_').isDigit = true := by
    cases l with
    | nil => exact absurd rfl hne
    | cons a t => exact h a (List.mem_cons_self _ _)
  have h4 : (l.getLastD '_').isDigit = true :=
    h _ (getLastD_mem_of_ne_nil l '_' hne)
  rw [h1, h2, h3, h4, noConsecUnd_of_digits l h]
  rfl

lemma filter_isDigit_of_digits (l : List Char)
    (h : ∀ c ∈ l, c.isDigit = true) : l.filter Char.isDigit = l := by
  induction l with
  | nil => rfl
  | cons a t ih =>
    rw [List.filter_cons, h a (List.mem_cons_self _ _)]
    simp only [ite_true]
    rw [ih (fun c hc => h c (List.mem_cons_of_mem _ hc))]

lemma digGroupsVal_of_digits (l : List Char) (hne : l ≠ [])
    (h : ∀ c ∈ l, c.isDigit = true) :
    digGroupsVal l = some (digitsToNat l) := by
  unfold digGroupsVal
  rw [digGroupsOK_of_digits l hne h]
  simp [filter_isDigit_of_digits l h]

lemma pyIntL_of_digits (l : List Char) (hne : l ≠ [])
    (h : ∀ c ∈ l, c.isDigit = true) :
    pyIntL l = some (Int.ofNat (digitsToNat l)) := by
  unfold pyIntL
  rw [stripPy_of_digits l h]
  have hhead : l.headD ' ' ≠ '-' ∧ l.headD ' ' ≠ '+' := by
    cases l with
    | nil => exact absurd rfl hne
    | cons a t =>
      have ha : a.isDigit = true := h a (List.mem_cons_self _ _)
      constructor
      · intro hq
        rw [List.headD_cons] at hq
        subst hq
        simp at ha
      · intro hq
        rw [List.headD_cons] at hq
        subst hq
        simp at ha
  rw [if_neg hhead.1, if_neg hhead.2, digGroupsVal_of_digits l hne h]
  rfl

lemma isdigitL_iff (l : List Char) :
    isdigitL l = true ↔ l ≠ [] ∧ ∀ c ∈ l, c.isDigit = true := by
  unfold isdigitL
  rw [Bool.and_eq_true, List.all_eq_true]
  constructor
  · rintro ⟨h1, h2⟩
    refine ⟨?_, h2⟩
    cases l with
    | nil => simp at h1
    | cons a t => simp
  · rintro ⟨h1, h2⟩
    refine ⟨?_, h2⟩
    cases l with
    | nil => exact absurd rfl h1
    | cons a t => rfl

lemma splitRc_of_digits (l : List Char)
    (h : ∀ c ∈ l, c.isDigit = true) : splitRc l = [l] := by
  induction l with
  | nil => rfl
  | cons a t ih =>
    cases t with
    | nil => rfl
    | cons b r =>
      have ha : a.isDigit = true := h a (List.mem_cons_self _ _)
      have hne : ¬(a = 'r' ∧ b = 'c') := by
        rintro ⟨ha', _⟩
        subst ha'
        simp at ha
      rw [splitRc, if_neg hne, ih (fun c hc => h c (List.mem_cons_of_mem _ hc))]

lemma rcOccurs_false_of_isdigit (l : List Char) (h : isdigitL l = true) :
    rcOccurs l = false := by
  obtain ⟨hne, hd⟩ := (isdigitL_iff l).mp h
  unfold rcOccurs
  rw [splitRc_of_digits l hd]
  rfl

lemma parseSegment_of_digits (x : List Char) (h : isdigitL x = true) :
    parseSegment x = some [VComp.num (Int.ofNat (digitsToNat x))] := by
  obtain ⟨hne, hd⟩ := (isdigitL_iff x).mp h
  unfold parseSegment
  rw [if_pos h, pyIntL_of_digits x hne hd]
  rfl

lemma collectSegments_of_digits (segs : List (List Char))
    (h : ∀ s ∈ segs, isdigitL s = true) :
    collectSegments segs =
      some (segs.map (fun s => VComp.num (Int.ofNat (digitsToNat s)))) := by
  induction segs with
  | nil => rfl
  | cons x rest ih =>
    rw [collectSegments, parseSegment_of_digits x (h x (List.mem_cons_self _ _)),
      ih (fun s hs => h s (List.mem_cons_of_mem _ hs))]
    rfl

lemma parseSegment_isSome (x : List Char)
    (h : rcOccurs x = true → (pyIntL ((splitRc x).headD [])).isSome = true) :
    (parseSegment x).isSome = true := by
  unfold parseSegment
  by_cases hd : isdigitL x = true
  · obtain ⟨hne, hdd⟩ := (isdigitL_iff x).mp hd
    rw [if_pos hd, pyIntL_of_digits x hne hdd]
    rfl
  · rw [if_neg hd]
    by_cases hrc : rcOccurs x = true
    · rw [if_pos hrc]
      obtain ⟨n, hn⟩ := Option.isSome_iff_exists.mp (h hrc)
      rw [hn]
      rfl
    · rw [if_neg hrc]
      rfl

lemma collectSegments_of_isSome (segs : List (List Char))
    (h : ∀ x ∈ segs, (parseSegment x).isSome = true) :
    collectSegments segs =
      some ((segs.map (fun x => (parseSegment x).getD [])).flatten) := by
  induction segs with
  | nil => rfl
  | cons x rest ih =>
    obtain ⟨v, hv⟩ :=
      Option.isSome_iff_exists.mp (h x (List.mem_cons_self _ _))
    rw [collectSegments, hv, ih (fun s hs => h s (List.mem_cons_of_mem _ hs))]
    simp [hv]

/-! ### Claims about `parse_version_info` -/

/-- C6: for every version string composed only of purely numeric
dot-separated segments, `parse_version_info` returns a tuple of integers
equal in count and value to the dot-separated segments. -/
theorem parse_version_info_all_numeric (s : String)
    (h : ∀ seg ∈ splitDot s.data, isdigitL seg = true) :
    parse_version_info s =
      some ((splitDot s.data).map
        (fun seg => VComp.num (Int.ofNat (digitsToNat seg)))) :=
  collectSegments_of_digits (splitDot s.data) h

/-- C6 witness: `parse_version_info "1.2.3" = (1, 2, 3)`. -/
theorem parse_version_info_all_numeric_witness :
    parse_version_info "1.2.3" =
      some [VComp.num 1, VComp.num 2, VComp.num 3] :=
  (parse_version_info_all_numeric "1.2.3" (by decide)).trans (by decide)

/-- C5: a segment containing the substring `rc` is split into an integer
prefix followed immediately by a string-tagged release-candidate suffix;
in particular `parse_version_info "1.2.0rc1" = (1, 2, 0, 'rc1')`. -/
theorem parse_version_info_rc_segment :
    (∀ x : List Char, rcOccurs x = true →
      ∀ n : Int, pyIntL ((splitRc x).headD []) = some n →
      parseSegment x =
        some [VComp.num n, VComp.str ⟨'r' :: 'c' :: (splitRc x).getD 1 []⟩]) ∧
    parse_version_info "1.2.0rc1" =
      some [VComp.num 1, VComp.num 2, VComp.num 0, VComp.str "rc1"] := by
  constructor
  · intro x hrc n hn
    have hd : isdigitL x = false := by
      cases hq : isdigitL x with
      | false => rfl
      | true => rw [rcOccurs_false_of_isdigit x hq] at hrc; cases hrc
    unfold parseSegment
    rw [hd, if_neg (by simp), if_pos hrc, hn]
    rfl
  · decide

/-- C5 witness: the general rc-splitting rule applied to the segment
`0rc1`. -/
theorem parse_version_info_rc_segment_witness :
    parseSegment ['0', 'r', 'c', '1'] =
      some [VComp.num 0, VComp.str "rc1"] :=
  (parse_version_info_rc_segment.1 ['0', 'r', 'c', '1'] (by decide) 0
    (by decide)).trans (by decide)

/-- C1 counterexample: on the input `"rc1"` the segment contains `rc` but
its prefix before `rc` is empty, so `int('')` raises `ValueError`;
`parse_version_info` does not return a tuple (modelled as `none`). -/
theorem parse_version_info_raises_on_bare_rc :
    parse_version_info "rc1" = none := by decide

/-- C1 amended: segments that are neither purely numeric nor contain `rc`
are silently dropped, and `parse_version_info` returns a tuple whenever
every segment containing `rc` has a prefix before the first `rc` that is a
valid integer literal (otherwise `int` raises and no tuple is returned). -/
theorem parse_version_info_drops_unmatched (s : String)
    (h : ∀ seg ∈ splitDot s.data, rcOccurs seg = true →
      (pyIntL ((splitRc seg).headD [])).isSome = true) :
    parse_version_info s =
      some (((splitDot s.data).map
        (fun seg => (parseSegment seg).getD [])).flatten) ∧
    ∀ seg : List Char, isdigitL seg = false → rcOccurs seg = false →
      parseSegment seg = some [] := by
  constructor
  · exact collectSegments_of_isSome (splitDot s.data)
      (fun x hx => parseSegment_isSome x (h x hx))
  · intro seg h1 h2
    unfold parseSegment
    rw [h1, if_neg (by simp), h2, if_neg (by simp)]

/-- C1 amended witness: `"1.0rc2.junk"` parses to `(1, 0, 'rc2')`, the
non-numeric, non-rc segment `junk` being dropped. -/
theorem parse_version_info_drops_unmatched_witness :
    parse_version_info "1.0rc2.junk" =
      some [VComp.num 1, VComp.num 0, VComp.str "rc2"] :=
  ((parse_version_info_drops_unmatched "1.0rc2.junk" (by decide)).1).trans
    (by decide)

/-! ### Model of the `os.path` (posixpath) helpers used by
`MMClassification.run` -/

/-- `os.path.basename(p)`: everything after the last `/`. -/
def basename (p : List Char) : List Char :=
  (splitOnChar '/' p).getLastD []

/-- `'.'`-intercalation, inverse of `splitOnChar '.'` up to the last
separator. -/
def intercalateDot : List (List Char) → List Char
  | [] => []
  | [p] => p
  | p :: rest => p ++ '.' :: intercalateDot rest

/-- `os.path.splitext(b)[0]` for a name `b` without `/`: drop the
extension starting at the last `.`, unless every character before that
dot is itself a dot (leading-dot filenames keep their name whole). -/
def splitextRoot (b : List Char) : List Char :=
  let parts := splitOnChar '.' b
  if parts.length ≤ 1 then b
  else
    let root := intercalateDot parts.dropLast
    if root.any (fun c => c ≠ '.') then root else b

/-- `os.path.join(a, b)` (posixpath, two components). -/
def joinPath (a b : List Char) : List Char :=
  if b.headD ' ' = '/' then b
  else if a = [] ∨ a.getLastD ' ' = '/' then a ++ b
  else a ++ '/' :: b

/-! ### `siatune/codebase/mmcls.py` — `MMClassification.run` -/

/-- Work-dir resolution in `MMClassification.run` (lines 135-142):

```python
if args.work_dir is not None:
    cfg.work_dir = args.work_dir
elif cfg.get('work_dir', None) is None:
    cfg.work_dir = osp.join('./work_dirs',
                            osp.splitext(osp.basename(args.config))[0])
```

`cliWorkDir` is `args.work_dir`, `cfgWorkDir` is `cfg.get('work_dir',
None)`, and the result is the final `cfg.work_dir`. -/
def resolveWorkDir (cliWorkDir cfgWorkDir : Option String)
    (config : String) : String :=
  match cliWorkDir with
  | some w => w
  | none =>
    match cfgWorkDir with
    | some w => w
    | none => ⟨joinPath "./work_dirs".data (splitextRoot (basename config.data))⟩

/-- Deprecation warning emitted when `--gpus` is supplied (line 147). -/
def gpusDeprecationWarning : String :=
  "--gpus is deprecated because we only support single GPU mode in non-distributed training. Use gpus=1 now."

/-- Deprecation warning emitted when `--gpu-ids` is supplied (line 152). -/
def gpuIdsDeprecationWarning : String :=
  "--gpu-ids is deprecated, please use --gpu-id. Because we only support single GPU mode in non-distributed training. Use the first GPU in gpu_ids now."

/-- GPU-flag resolution in `MMClassification.run` (lines 145-157), the
three sequential `if` statements collapsed into one case split:

```python
if args.gpus is not None:
    cfg.gpu_ids = range(1)
    warnings.warn(...)
if args.gpu_ids is not None:
    cfg.gpu_ids = args.gpu_ids[0:1]
    warnings.warn(...)
if args.gpus is None and args.gpu_ids is None:
    cfg.gpu_ids = [args.gpu_id]
```

(when both `--gpus` and `--gpu-ids` are given, the second assignment
overwrites the first and both warnings fire). Result: the final
`cfg.gpu_ids` and the list of warnings, in emission order. -/
def resolveGpuIds (gpus : Option Int) (gpu_ids : Option (List Int))
    (gpu_id : Int) : List Int × List String :=
  match gpus, gpu_ids with
  | none, none => ([gpu_id], [])
  | some _, none =>
    ((List.range 1).map Int.ofNat, [gpusDeprecationWarning])
  | none, some ids => (ids.take 1, [gpuIdsDeprecationWarning])
  | some _, some ids =>
    (ids.take 1, [gpusDeprecationWarning, gpuIdsDeprecationWarning])

/-- Launcher handling in `MMClassification.run` (lines 163-170):

```python
if args.launcher == 'none':
    distributed = False
else:
    distributed = True
    init_dist(args.launcher, **cfg.dist_params)
    _, world_size = get_dist_info()
    cfg.gpu_ids = range(world_size)
```

`gpuIds` is `cfg.gpu_ids` as resolved from the flags; `world_size` is
what `get_dist_info()` reports after `init_dist`. Result: the
`distributed` flag (`true` exactly when a process group is initialized)
and the final `cfg.gpu_ids`. -/
def launcherResolve (launcher : String) (gpuIds : List Int)
    (world_size : Nat) : Bool × List Int :=
  if launcher = "none" then (false, gpuIds)
  else (true, (List.range world_size).map Int.ofNat)

/-! ### `siatune/codebase/mmcls.py` — `MMClassification.parse_args` -/

/-- Which flags of the mutually exclusive argparse group
(`--device | --gpus | --gpu-ids | --gpu-id`) were supplied on the command
line. `gpu_id` is `some` only when `--gpu-id` was given explicitly; its
argparse default (0) does not count as supplied. -/
structure DeviceFlags where
  device : Option String
  gpus : Option Int
  gpu_ids : Option (List Int)
  gpu_id : Option Int
deriving DecidableEq

/-- Number of flags of the mutually exclusive group that were supplied. -/
def DeviceFlags.suppliedCount (f : DeviceFlags) : Nat :=
  (if f.device.isSome then 1 else 0) + (if f.gpus.isSome then 1 else 0) +
    (if f.gpu_ids.isSome then 1 else 0) + (if f.gpu_id.isSome then 1 else 0)

/-- `parse_args` declares the four flags in
`parser.add_mutually_exclusive_group()`: argparse rejects a command line
that supplies more than one flag of the group (`error: argument ... not
allowed with argument ...`, which exits the process), and otherwise
returns the parsed namespace, `--gpu-id` falling back to its default 0.
`Except.error` models the fatal argparse exit. -/
def parseDeviceGroup (f : DeviceFlags) : Except String DeviceFlags :=
  if 2 ≤ f.suppliedCount then
    Except.error "argparse: mutually exclusive arguments"
  else
    Except.ok { f with gpu_id := some (f.gpu_id.getD 0) }

/-- The process environment, as consulted and written by `parse_args`. -/
abbrev Env : Type := List (String × String)

/-- `key in os.environ` / `os.environ[key]` lookup. -/
def envGet (e : Env) (k : String) : Option String :=
  (e.find? (fun p => p.1 == k)).map (fun p => p.2)

/-- `os.environ[key] = v` for a key that is absent. -/
def envSet (e : Env) (k v : String) : Env := e ++ [(k, v)]

/-- The environment mutation at the end of `parse_args` (lines 100-101):

```python
if 'LOCAL_RANK' not in os.environ:
    os.environ['LOCAL_RANK'] = str(args.local_rank)
```
-/
def setLocalRankIfAbsent (e : Env) (local_rank : Int) : Env :=
  if envGet e "LOCAL_RANK" = none then
    envSet e "LOCAL_RANK" (toString local_rank)
  else e

/-! ### `siatune/codebase/mm.py` — `MMBaseTask.create_trainable` -/

/-- The fields of `ray.air.config.ScalingConfig` that
`create_trainable` passes: `trainer_resources=dict(CPU=...)`,
`num_workers=...`, `use_gpu=...`. -/
structure ScalingConfig where
  trainer_resources_cpu : Nat
  num_workers : Nat
  use_gpu : Bool
deriving DecidableEq

/-- The task attributes consumed by `MMBaseTask.create_trainable`. -/
structure MMBaseTask where
  num_workers : Nat
  num_cpus_per_worker : Nat
  num_gpus_per_worker : Nat
deriving DecidableEq

/-- The `DataParallelTrainer` as built by `create_trainable`: the
train-loop entry point and backend config carry no data in this model;
only the scaling descriptor is observable. -/
structure DataParallelTrainer where
  scaling_config : ScalingConfig
deriving DecidableEq

/-- `MMBaseTask.create_trainable` (mm.py lines 17-30):

```python
return DataParallelTrainer(
    self.context_aware_run,
    backend_config=MMBackendConfig(),
    scaling_config=ScalingConfig(
        trainer_resources=dict(CPU=self.num_cpus_per_worker),
        num_workers=self.num_workers,
        use_gpu=torch.cuda.is_available()))
```

`cuda_available` is the value of `torch.cuda.is_available()`. -/
def create_trainable (t : MMBaseTask) (cuda_available : Bool) :
    DataParallelTrainer :=
  { scaling_config :=
      { trainer_resources_cpu := t.num_cpus_per_worker
        num_workers := t.num_workers
        use_gpu := cuda_available } }

/-! ### Supporting lemmas about the path helpers -/

lemma splitOnChar_ne_nil (sep : Char) (l : List Char) :
    splitOnChar sep l ≠ [] := by
  cases l with
  | nil => simp [splitOnChar]
  | cons c rest =>
    rw [splitOnChar]
    by_cases h : c = sep
    · rw [if_pos h]; simp
    · rw [if_neg h]
      cases hq : splitOnChar sep rest <;> simp

lemma not_mem_of_mem_splitOnChar (sep : Char) (l : List Char) :
    ∀ p ∈ splitOnChar sep l, sep ∉ p := by
  induction l with
  | nil =>
    intro p hp
    simp [splitOnChar] at hp
    subst hp
    simp
  | cons c rest ih =>
    intro p hp
    rw [splitOnChar] at hp
    by_cases h : c = sep
    · rw [if_pos h] at hp
      rcases List.mem_cons.mp hp with hp | hp
      · subst hp; simp
      · exact ih p hp
    · rw [if_neg h] at hp
      cases hq : splitOnChar sep rest with
      | nil => exact absurd hq (splitOnChar_ne_nil sep rest)
      | cons hd tl =>
        rw [hq] at hp
        rcases List.mem_cons.mp hp with hp | hp
        · subst hp
          intro hmem
          rcases List.mem_cons.mp hmem with hmem | hmem
          · exact h hmem.symm
          · exact ih hd (by rw [hq]; exact List.mem_cons_self _ _) hmem
        · exact ih p (by rw [hq]; exact List.mem_cons_of_mem _ hp)

lemma mem_of_mem_mem_splitOnChar (sep : Char) (l : List Char) :
    ∀ p ∈ splitOnChar sep l, ∀ c ∈ p, c ∈ l := by
  induction l with
  | nil =>
    intro p hp c hc
    simp [splitOnChar] at hp
    subst hp
    simp at hc
  | cons a rest ih =>
    intro p hp c hc
    rw [splitOnChar] at hp
    by_cases h : a = sep
    · rw [if_pos h] at hp
      rcases List.mem_cons.mp hp with hp | hp
      · subst hp; simp at hc
      · exact List.mem_cons_of_mem _ (ih p hp c hc)
    · rw [if_neg h] at hp
      cases hq : splitOnChar sep rest with
      | nil => exact absurd hq (splitOnChar_ne_nil sep rest)
      | cons hd tl =>
        rw [hq] at hp
        rcases List.mem_cons.mp hp with hp | hp
        · subst hp
          rcases List.mem_cons.mp hc with hc | hc
          · subst hc; exact List.mem_cons_self _ _
          · exact List.mem_cons_of_mem _
              (ih hd (by rw [hq]; exact List.mem_cons_self _ _) c hc)
        · exact List.mem_cons_of_mem _
            (ih p (by rw [hq]; exact List.mem_cons_of_mem _ hp) c hc)

lemma mem_intercalateDot (parts : List (List Char)) :
    ∀ c ∈ intercalateDot parts, c = '.' ∨ ∃ p ∈ parts, c ∈ p := by
  induction parts with
  | nil => intro c hc; simp [intercalateDot] at hc
  | cons p rest ih =>
    intro c hc
    cases rest with
    | nil =>
      right
      exact ⟨p, List.mem_cons_self _ _, by simpa [intercalateDot] using hc⟩
    | cons q rest2 =>
      rw [show intercalateDot (p :: q :: rest2) =
        p ++ '.' :: intercalateDot (q :: rest2) from rfl] at hc
      rcases List.mem_append.mp hc with hc | hc
      · exact Or.inr ⟨p, List.mem_cons_self _ _, hc⟩
      · rcases List.mem_cons.mp hc with hc | hc
        · exact Or.inl hc
        · rcases ih c hc with hc | ⟨r, hr, hcr⟩
          · exact Or.inl hc
          · exact Or.inr ⟨r, List.mem_cons_of_mem _ hr, hcr⟩

lemma slash_not_mem_basename (p : List Char) : '/' ∉ basename p := by
  unfold basename
  exact not_mem_of_mem_splitOnChar '/' p _
    (getLastD_mem_of_ne_nil _ _ (splitOnChar_ne_nil '/' p))

lemma slash_not_mem_splitextRoot (b : List Char) (hb : '/' ∉ b) :
    '/' ∉ splitextRoot b := by
  unfold splitextRoot
  by_cases h1 : (splitOnChar '.' b).length ≤ 1
  · rw [if_pos h1]; exact hb
  · rw [if_neg h1]
    by_cases h2 :
        (intercalateDot (splitOnChar '.' b).dropLast).any (fun c => c ≠ '.')
    · rw [if_pos h2]
      intro hmem
      rcases mem_intercalateDot _ '/' hmem with hc | ⟨q, hq, hcq⟩
      · cases hc
      · exact hb (mem_of_mem_mem_splitOnChar '.' b q
          (List.dropLast_subset _ hq) '/' hcq)
    · rw [if_neg h2]; exact hb

lemma joinPath_work_dirs (b : List Char) (hb : '/' ∉ b) :
    joinPath "./work_dirs".data b = "./work_dirs/".data ++ b := by
  unfold joinPath
  have h1 : b.headD ' ' ≠ '/' := by
    cases b with
    | nil => decide
    | cons c rest =>
      rw [List.headD_cons]
      intro hq
      subst hq
      exact hb (List.mem_cons_self _ _)
  rw [if_neg h1, if_neg (by decide)]
  have h2 : "./work_dirs/".data = "./work_dirs".data ++ ['/'] := by decide
  rw [h2, List.append_assoc]
  rfl

/-! ### Claims about `MMClassification.run` / `parse_args` and
`MMBaseTask.create_trainable` -/

/-- C2: the effective working directory is resolved by priority — the
explicit `--work-dir` CLI value first; otherwise a `work_dir` value
already in the loaded config; otherwise it is derived from the config
filename as `./work_dirs/<config-filename-without-extension>`. -/
theorem work_dir_priority (cli cfg : Option String) (config : String) :
    (∀ w, cli = some w → resolveWorkDir cli cfg config = w) ∧
    (∀ w, cli = none → cfg = some w → resolveWorkDir cli cfg config = w) ∧
    (cli = none → cfg = none →
      resolveWorkDir cli cfg config =
        ⟨"./work_dirs/".data ++ splitextRoot (basename config.data)⟩) := by
  refine ⟨?_, ?_, ?_⟩
  · intro w hw
    subst hw
    rfl
  · intro w hc hw
    subst hc
    subst hw
    rfl
  · intro hc hw
    subst hc
    subst hw
    show String.mk (joinPath "./work_dirs".data
      (splitextRoot (basename config.data))) = _
    rw [joinPath_work_dirs _
      (slash_not_mem_splitextRoot _ (slash_not_mem_basename config.data))]

/-- C2 witness: with no `--work-dir` and no config `work_dir`,
`configs/resnet/train.py` resolves to `./work_dirs/train`. -/
theorem work_dir_priority_witness :
    resolveWorkDir none none "configs/resnet/train.py" =
      "./work_dirs/train" :=
  ((work_dir_priority none none "configs/resnet/train.py").2.2 rfl rfl).trans
    (by decide)

/-- C7: whenever `--gpus` is supplied and `--gpu-ids` is not, the
resolved `gpu_ids` has length exactly 1 (the single-GPU fallback
`range(1)`) regardless of the numeric value of `--gpus`, and the
deprecation warning is emitted. -/
theorem gpus_flag_single_gpu_fallback (g d : Int) :
    ((resolveGpuIds (some g) none d).1).length = 1 ∧
    gpusDeprecationWarning ∈ (resolveGpuIds (some g) none d).2 := by
  exact ⟨rfl, List.mem_cons_self _ _⟩

/-- C8: with `--gpu-ids` supplied (non-empty) and `--gpus` absent, the
resolved `gpu_ids` is the one-element list of the first supplied id; with
only `--gpu-id` supplied, it is the one-element list of that id. -/
theorem gpu_ids_first_and_gpu_id_resolution :
    (∀ (i : Int) (rest : List Int) (d : Int),
      (resolveGpuIds none (some (i :: rest)) d).1 = [i]) ∧
    (∀ d : Int, (resolveGpuIds none none d).1 = [d]) ∧
    (resolveGpuIds none (some [3, 4]) 0).1 = [3] ∧
    (resolveGpuIds none none 5).1 = [5] := by
  exact ⟨fun i rest d => rfl, fun d => rfl, rfl, rfl⟩

/-- C9: with `--launcher none` no process group is initialized
(`distributed = false`) and `gpu_ids` is left exactly as resolved from
the GPU flags; with `--launcher pytorch` the process group is initialized
(`distributed = true`) and `gpu_ids` is overwritten to
`range(world_size)`. -/
theorem launcher_distributed_resolution (ids : List Int) (ws : Nat) :
    launcherResolve "none" ids ws = (false, ids) ∧
    launcherResolve "pytorch" ids ws =
      (true, (List.range ws).map Int.ofNat) := by
  constructor
  · rfl
  · rw [launcherResolve, if_neg (by decide)]

/-- C3 counterexample: supplying two legacy device-selection flags
together (here `--device cuda --gpus 2`) is fatal, not a non-fatal
collapse — the mutually exclusive argparse group rejects the command
line and terminates the process (modelled as `Except.error`). -/
theorem parse_args_multiple_device_flags_fatal :
    parseDeviceGroup
        { device := some "cuda", gpus := some 2, gpu_ids := none,
          gpu_id := none } =
      Except.error "argparse: mutually exclusive arguments" := rfl

/-- C3 amended: the legacy device-selection flags are mutually exclusive,
so supplying two or more of them together makes `parse_args` terminate
via the standard CLI parse-failure path (fatal); supplying a single
deprecated flag is non-fatal — `run` collapses `--gpus` to the
single-GPU fallback and `--gpu-ids` to its first id, emitting a
deprecation warning in each case. -/
theorem device_flags_exclusive_and_collapse :
    (∀ f : DeviceFlags, 2 ≤ f.suppliedCount →
      parseDeviceGroup f =
        Except.error "argparse: mutually exclusive arguments") ∧
    (∀ (g d : Int),
      resolveGpuIds (some g) none d = ([0], [gpusDeprecationWarning])) ∧
    (∀ (ids : List Int) (d : Int),
      resolveGpuIds none (some ids) d =
        (ids.take 1, [gpuIdsDeprecationWarning])) := by
  refine ⟨fun f hf => ?_, fun g d => rfl, fun ids d => rfl⟩
  rw [parseDeviceGroup, if_pos hf]

/-- C3 amended witness: `--device cuda --gpu-id 3` together are rejected
fatally. -/
theorem device_flags_exclusive_and_collapse_witness :
    parseDeviceGroup
        { device := some "cuda", gpus := none, gpu_ids := none,
          gpu_id := some 3 } =
      Except.error "argparse: mutually exclusive arguments" :=
  device_flags_exclusive_and_collapse.1
    { device := some "cuda", gpus := none, gpu_ids := none,
      gpu_id := some 3 } (by decide)

/-- C4 counterexample: two tasks that differ only in
`num_gpus_per_worker` (4 vs 0) produce identical trainables — the
scaling descriptor does not bind a per-worker GPU quota from
`num_gpus_per_worker`, contrary to the claim. -/
theorem create_trainable_ignores_gpus_per_worker :
    create_trainable
        { num_workers := 2, num_cpus_per_worker := 1,
          num_gpus_per_worker := 4 } true =
      create_trainable
        { num_workers := 2, num_cpus_per_worker := 1,
          num_gpus_per_worker := 0 } true ∧
    (4 : Nat) ≠ 0 := ⟨rfl, by decide⟩

/-- C4 amended: the scaling descriptor built by `create_trainable` binds
the number of worker processes from `num_workers`, a CPU quota from
`num_cpus_per_worker` (as trainer resources), and GPU availability; it
does not depend on `num_gpus_per_worker`. -/
theorem create_trainable_scaling_binding (t : MMBaseTask) (av : Bool) :
    (create_trainable t av).scaling_config =
      { trainer_resources_cpu := t.num_cpus_per_worker,
        num_workers := t.num_workers, use_gpu := av } ∧
    ∀ g : Nat,
      create_trainable { t with num_gpus_per_worker := g } av =
        create_trainable t av :=
  ⟨rfl, fun _ => rfl⟩

lemma envGet_envSet_self (e : Env) (k v : String)
    (h : envGet e k = none) : envGet (envSet e k v) k = some v := by
  induction e with
  | nil => simp [envGet, envSet, List.find?]
  | cons a t ih =>
    rw [envGet, envSet] at *
    rw [List.cons_append, List.find?]
    cases hq : (a.1 == k) with
    | false =>
      rw [List.find?, hq] at h
      simp only [hq]
      exact ih h
    | true =>
      rw [List.find?, hq] at h
      simp at h

/-- C10: `parse_args` writes `LOCAL_RANK` (to the string form of
`--local_rank`) only when it is absent from the environment; when it is
already present, the environment is left unchanged. -/
theorem local_rank_set_if_absent (e : Env) (r : Int) :
    (envGet e "LOCAL_RANK" = none →
      envGet (setLocalRankIfAbsent e r) "LOCAL_RANK" =
        some (toString r)) ∧
    (∀ v, envGet e "LOCAL_RANK" = some v → setLocalRankIfAbsent e r = e) := by
  constructor
  · intro h
    rw [setLocalRankIfAbsent, if_pos h]
    exact envGet_envSet_self e "LOCAL_RANK" (toString r) h
  · intro v h
    rw [setLocalRankIfAbsent, if_neg (by rw [h]; simp)]

/-- C10 witness: in an environment with `LOCAL_RANK` unset, `parse_args`
with `--local_rank 3` sets `LOCAL_RANK=3`; in an environment where
`LOCAL_RANK=7`, it is left unchanged. -/
theorem local_rank_set_if_absent_witness :
    envGet (setLocalRankIfAbsent ([("PATH", "/usr/bin")] : Env) 3)
        "LOCAL_RANK" = some "3" ∧
    setLocalRankIfAbsent ([("LOCAL_RANK", "7")] : Env) 3 =
      [("LOCAL_RANK", "7")] :=
  ⟨((local_rank_set_if_absent [("PATH", "/usr/bin")] 3).1 (by decide)).trans
      (by decide),
    (local_rank_set_if_absent [("LOCAL_RANK", "7")] 3).2 "7" (by decide)⟩

end Siatune
